import Mathlib

/-
  Verification of the LipReading repository (AnilKumarTeegala/LipReading).

  Source files embedded here:
    - src/models/lipreader/better_model.py  (VideoEncoder, CharDecoder)
    - src/scripts/train.py                  (_get_datasets, _init_models, train)

  External collaborators (allennlp.nn.util.masked_softmax and
  sort_batch_by_length, torch RNN/pack/pad machinery, the data-loader and
  trainer modules) are not part of the repository; where a claim depends on
  them they are modelled from the specification, and each such definition
  carries a doc comment saying so.
-/

namespace LipReading

/-! ## Python attribute semantics for train.py._init_models and
    VideoEncoder.__init__

    The claims about the driver raising before training are decided by
    Python name resolution and attribute lookup.  We embed the relevant
    statements of the source as data and give them a small-step semantics:
    reading an attribute that was never assigned on the object is an
    AttributeError, calling a function with a keyword argument that is not
    among its parameters is a TypeError, and an attribute lookup on a
    module for a name the module does not define is an AttributeError. -/

inductive PyError where
  | typeError (msg : String) : PyError
  | attributeError (msg : String) : PyError
deriving DecidableEq, Repr

/-- Top-level names defined by src/models/lipreader/better_model.py. -/
def betterModelDefs : List String :=
  ["supported_rnns", "supported_rnns_inv", "VideoEncoder", "CharDecoder"]

/-- Parameters of VideoEncoder.__init__ (better_model.py line 14), besides self. -/
def videoEncoderInitParams : List String :=
  ["frame_dim", "hidden_size", "rnn_type", "num_layers", "bidirectional", "rnn_dropout"]

/-- Keyword arguments passed to VideoEncoder by _init_models (train.py lines 96-98). -/
def initModelsEncoderKwargs : List String :=
  ["rnn_type", "num_layers", "bidirectional", "rnn_dropout",
   "enable_ctc", "vocab_size", "char2idx"]

/-- Python call semantics for keyword arguments: the call raises TypeError as
    soon as some keyword argument is not a parameter of the callee. -/
def callKwargsCheck (params kwargs : List String) : Except PyError Unit :=
  match kwargs.find? (fun k => !params.contains k) with
  | some k => .error (.typeError ("unexpected keyword argument " ++ k))
  | none => .ok ()

/-- One statement of an __init__ body, viewed through its effect on the
    attribute set of self. -/
inductive InitStmt where
  /-- super(VideoEncoder).__init__(): the one-argument super form does not
      bind the instance, so nn.Module.__init__ never runs on self. -/
  | superInitNoInstance : InitStmt
  /-- self.name = value for a plain (non-module) value. -/
  | assignAttr (name : String) : InitStmt
  /-- evaluation of self.name. -/
  | readAttr (name : String) : InitStmt
  /-- self.name = value where value is an nn.Module: nn.Module.__setattr__
      raises unless nn.Module.__init__ has run on self. -/
  | assignModuleAttr (name : String) : InitStmt
deriving DecidableEq, Repr

structure PyObj where
  attrs : List String
  moduleInitDone : Bool
deriving DecidableEq, Repr

def runInit : List InitStmt → PyObj → Except PyError PyObj
  | [], o => .ok o
  | stmt :: rest, o =>
    match stmt with
    | .superInitNoInstance => runInit rest o
    | .assignAttr n => runInit rest { o with attrs := n :: o.attrs }
    | .readAttr n =>
        if o.attrs.contains n then runInit rest o
        else .error (.attributeError ("VideoEncoder object has no attribute " ++ n))
    | .assignModuleAttr n =>
        if o.moduleInitDone then runInit rest { o with attrs := n :: o.attrs }
        else .error (.attributeError "cannot assign module before Module.__init__ call")

/-- The body of VideoEncoder.__init__ (better_model.py lines 16-26), statement
    by statement in evaluation order.  The self.rnn assignment on line 24
    first reads self.rnn_type, then the arguments self.frame_dim,
    self.hidden_size, self.num_layers, self.bidirectional, self.rnn_dropout,
    and only then assigns the constructed module to self.rnn. -/
def videoEncoderInitBody : List InitStmt :=
  [ .superInitNoInstance,
    .assignAttr "hidden_size",
    .assignAttr "rnn_type",
    .assignAttr "num_layers",
    .assignAttr "bidirectional",
    .assignAttr "rnn_dropout",
    .readAttr "rnn_type",
    .readAttr "frame_dim",
    .readAttr "hidden_size",
    .readAttr "num_layers",
    .readAttr "bidirectional",
    .readAttr "rnn_dropout",
    .assignModuleAttr "rnn" ]

/-- Attribute lookup on the better_model module. -/
def moduleLookup (name : String) : Except PyError Unit :=
  if betterModelDefs.contains name then .ok ()
  else .error (.attributeError ("module has no attribute " ++ name))

/-- Model of _init_models (train.py lines 83-102).  The argument values play no role:
    the outcome is decided by the keyword-argument names, the __init__ body
    and the module attribute lookup, so the model takes no arguments.
    Evaluation order of the source: first the VideoEncoder call (keyword
    check, then the __init__ body), then the CharDecodingStep lookup. -/
def initModels : Except PyError Unit := do
  callKwargsCheck videoEncoderInitParams initModelsEncoderKwargs
  let _ ← runInit videoEncoderInitBody ⟨[], false⟩
  moduleLookup "CharDecodingStep"

/-! ## Dynamic tensor semantics for CharDecoder.forward
    (better_model.py lines 96-138)

    CharDecoder.forward manipulates torch tensors whose shapes and dtypes
    are only checked at run time, and the source contains shape and dtype
    defects, so the decoder is embedded over dynamically shaped tensors: a
    tensor is a shape, a dtype tag and flat row-major data, and each torch
    operation checks what torch checks and returns an error where torch
    raises.  Integer and boolean tensors are carried in the same rational
    data (booleans as 0/1). -/

inductive DType where
  | float : DType
  | int : DType
  | bool : DType
deriving DecidableEq, Repr

structure Tensor where
  shape : List ℕ
  dtype : DType
  data : List ℚ
deriving DecidableEq, Repr

def shapeProd (s : List ℕ) : ℕ := s.foldr (· * ·) 1

def Tensor.rank (t : Tensor) : ℕ := t.shape.length

/-- t.shape[d] (0 when out of range; forward only reads in-range dims). -/
def Tensor.dim (t : Tensor) (d : ℕ) : ℕ := t.shape.getD d 0

/-- Mixed-radix decomposition of a flat index along a shape. -/
def unravel : List ℕ → ℕ → List ℕ
  | [], _ => []
  | _ :: rest, k => k / shapeProd rest :: unravel rest (k % shapeProd rest)

def flatIndex : List ℕ → List ℕ → ℕ
  | _ :: ds, i :: is => i * shapeProd ds + flatIndex ds is
  | _, _ => 0

def Tensor.entry (t : Tensor) (idx : List ℕ) : ℚ :=
  t.data.getD (flatIndex t.shape idx) 0

def buildData (shape : List ℕ) (f : List ℕ → ℚ) : List ℚ :=
  (List.range (shapeProd shape)).map (fun k => f (unravel shape k))

/-- Index into a broadcast source: drop the leading extra dimensions and
    send any size-1 source dimension to 0. -/
def bcIdx (srcShape idx : List ℕ) : List ℕ :=
  List.zipWith (fun d i => if d = 1 then 0 else i) srcShape
    (idx.drop (idx.length - srcShape.length))

/-- torch expand compatibility: the target extends the source shape on the
    left and every aligned dimension matches or is 1 in the source. -/
def expandOk (src dst : List ℕ) : Bool :=
  decide (src.length ≤ dst.length)
    && (List.zipWith (fun d i => d == i || d == 1) src
        (dst.drop (dst.length - src.length))).all id

def Tensor.expand (t : Tensor) (dst : List ℕ) : Except String Tensor :=
  if expandOk t.shape dst then
    .ok ⟨dst, t.dtype, buildData dst (fun idx => t.entry (bcIdx t.shape idx))⟩
  else .error "expand: invalid target shape"

def Tensor.expand_as (t other : Tensor) : Except String Tensor :=
  t.expand other.shape

def Tensor.arange (n : ℕ) : Tensor :=
  ⟨[n], .int, (List.range n).map (fun k => (k : ℚ))⟩

def Tensor.unsqueeze (t : Tensor) (d : ℕ) : Tensor :=
  ⟨t.shape.take d ++ 1 :: t.shape.drop d, t.dtype, t.data⟩

/-- torch squeeze(dim): drop the dimension when its size is 1, otherwise
    return the tensor unchanged. -/
def Tensor.squeezeDim (t : Tensor) (d : ℕ) : Tensor :=
  if t.shape.getD d 0 = 1 then
    ⟨t.shape.take d ++ t.shape.drop (d + 1), t.dtype, t.data⟩
  else t

/-- squeeze(dim=-1): the negative dim normalizes to rank - 1. -/
def Tensor.squeezeLast (t : Tensor) : Tensor := t.squeezeDim (t.rank - 1)

/-- Broadcast of two shapes, aligned at the trailing dimensions (given
    reversed). -/
def broadcastRev : List ℕ → List ℕ → Option (List ℕ)
  | [], ys => some ys
  | xs, [] => some xs
  | x :: xs, y :: ys =>
    match broadcastRev xs ys with
    | none => none
    | some rest =>
      if x = y then some (x :: rest)
      else if x = 1 then some (y :: rest)
      else if y = 1 then some (x :: rest)
      else none

def broadcastShapes (a b : List ℕ) : Option (List ℕ) :=
  (broadcastRev a.reverse b.reverse).map List.reverse

/-- Elementwise a < b with broadcasting, producing a bool tensor. -/
def Tensor.lt (a b : Tensor) : Except String Tensor :=
  match broadcastShapes a.shape b.shape with
  | none => .error "lt: shapes are not broadcastable"
  | some s =>
    .ok ⟨s, .bool, buildData s (fun idx =>
      if a.entry (bcIdx a.shape idx) < b.entry (bcIdx b.shape idx) then 1
      else 0)⟩

/-- nn.Embedding lookup: weight is (num_embeddings, embedding_dim), the
    index tensor must be integral and in range, and the output has shape
    idx.shape ++ [embedding_dim]. -/
def embeddingLookup (weight idx : Tensor) : Except String Tensor :=
  match weight.shape with
  | [v, dimW] =>
    if idx.dtype = .int
        && idx.data.all (fun q =>
            decide (0 ≤ q.num) && decide (q.num < v) && (q.den == 1)) then
      .ok ⟨idx.shape ++ [dimW], .float,
        idx.data.flatMap (fun q =>
          (weight.data.drop (q.num.toNat * dimW)).take dimW)⟩
    else .error "embedding: index tensor must be integral and in range"
  | _ => .error "embedding: weight must be 2-D"

/-- nn.Linear on the last dimension: y = x matmul transpose(w) + b with w of
    shape (out_features, in_features) and b of shape (out_features). -/
def linear (w b x : Tensor) : Except String Tensor :=
  match w.shape with
  | [outF, inF] =>
    if x.rank = 0 ∨ x.dim (x.rank - 1) ≠ inF then
      .error "linear: input features mismatch"
    else
      .ok ⟨x.shape.take (x.rank - 1) ++ [outF], .float,
        buildData (x.shape.take (x.rank - 1) ++ [outF]) (fun idx =>
          let o := idx.getD (x.rank - 1) 0
          let base := idx.take (x.rank - 1)
          b.entry [o] + ((List.range inF).map (fun k =>
            w.entry [o, k] * x.entry (base ++ [k]))).sum)⟩
  | _ => .error "linear: weight must be 2-D"

/-- torch.cat of two tensors along dimension d: the ranks must agree and
    every dimension other than d must match. -/
def Tensor.cat2 (a b : Tensor) (d : ℕ) : Except String Tensor :=
  if a.rank ≠ b.rank then
    .error "Tensors must have same number of dimensions"
  else if (List.range a.rank).any (fun j => j != d && a.dim j != b.dim j) then
    .error "Sizes of tensors must match except in dimension"
  else
    let s := a.shape.take d ++ (a.dim d + b.dim d) :: a.shape.drop (d + 1)
    .ok ⟨s, a.dtype, buildData s (fun idx =>
      if idx.getD d 0 < a.dim d then a.entry idx
      else b.entry (idx.take d ++ (idx.getD d 0 - a.dim d) :: idx.drop (d + 1)))⟩

/-- torch.bmm: batched matrix product of (b, n, m) and (b, m, p). -/
def Tensor.bmm (a b : Tensor) : Except String Tensor :=
  match a.shape, b.shape with
  | [ba, n, m], [bb, m2, p] =>
    if ba = bb ∧ m = m2 then
      .ok ⟨[ba, n, p], .float, buildData [ba, n, p] (fun idx =>
        let i := idx.getD 0 0
        let j := idx.getD 1 0
        let q := idx.getD 2 0
        ((List.range m).map (fun k =>
          a.entry [i, j, k] * b.entry [i, k, q])).sum)⟩
    else .error "bmm: batch or inner dimensions mismatch"
  | _, _ => .error "bmm: expected 3-D tensors"

def Tensor.mapData (t : Tensor) (f : ℚ → ℚ) : Tensor :=
  ⟨t.shape, t.dtype, t.data.map f⟩

/-- The decoder recurrent module self.rnn of CharDecoder.__init__ (input
    size char_dim, batch_first).  The guards mirror torch check_forward_args
    on a batched call: the input must be 3-D (batch, seq, input_size), its
    last dimension must equal the configured input size, and its entries
    must be floats; the recurrence itself is external torch code, passed in
    as a function with the torch output contract (output, (h_n, c_n)). -/
structure RnnModule where
  inputSize : ℕ
  compute : Tensor → Tensor × Tensor → Tensor × (Tensor × Tensor)

def RnnModule.forward (m : RnnModule) (input : Tensor)
    (hx : Tensor × Tensor) : Except String (Tensor × (Tensor × Tensor)) :=
  if input.rank ≠ 3 then
    .error ("input must have 3 dimensions, got " ++ toString input.rank)
  else if input.dim 2 ≠ m.inputSize then
    .error "input.size(-1) must be equal to input_size"
  else if input.dtype ≠ .float then
    .error "expected scalar type Float"
  else .ok (m.compute input hx)

/-- The learned modules of CharDecoder.__init__ (better_model.py lines
    77-94) together with the two external functions used by forward:
    allennlp masked_softmax (as an opaque function of the logits and the
    mask, never reached on any input) and the scalar tanh of line 133
    applied pointwise. -/
structure CharDecoderModel where
  embedding : Tensor
  rnn : RnnModule
  attn_projW : Tensor
  attn_projB : Tensor
  concat_layerW : Tensor
  concat_layerB : Tensor
  output_projW : Tensor
  output_projB : Tensor
  msf : Tensor → Tensor → Tensor
  tanhF : ℚ → ℚ

/-- CharDecoder.forward (better_model.py lines 96-138), statement by
    statement in source order.  Line 116 rebinds char to
    char.unsqueeze(dim=1), and line 120 runs self.rnn on this raw index
    tensor; the embedded_char of line 114 is computed and never used
    afterwards.  Line 129 applies unsqueeze(dim=1) to the bmm result even
    though the comment above it states the context should be
    (batch_size, hidden_size). -/
def CharDecoder.forward (p : CharDecoderModel)
    (char previous_stateH previous_stateC encoder_lens
      encoder_hidden_states : Tensor) :
    Except String (Tensor × (Tensor × Tensor)) := do
  let batch_size := char.dim 0
  let en_seq_len := encoder_hidden_states.dim 1
  let arangeRow ← (Tensor.arange en_seq_len).expand [batch_size, en_seq_len]
  let encoder_mask ← Tensor.lt arangeRow (encoder_lens.unsqueeze 1)
  let embedded_char ← embeddingLookup p.embedding char
  let _ := embedded_char
  let char := char.unsqueeze 1
  let rnnOut ← p.rnn.forward char (previous_stateH, previous_stateC)
  let hidden_state := rnnOut.1
  let final_state := rnnOut.2
  let expanded_hidden_state ← hidden_state.expand_as encoder_hidden_states
  let catHS ← Tensor.cat2 encoder_hidden_states expanded_hidden_state 2
  let attn_logits0 ← linear p.attn_projW p.attn_projB catHS
  let attn_logits := attn_logits0.squeezeLast
  let attn_weights := (p.msf attn_logits encoder_mask).unsqueeze 1
  let context0 ← Tensor.bmm attn_weights encoder_hidden_states
  let context := context0.unsqueeze 1
  let catCH ← Tensor.cat2 context (hidden_state.squeezeDim 1) 1
  let new_hidden_state0 ← linear p.concat_layerW p.concat_layerB catCH
  let new_hidden_state := new_hidden_state0.mapData p.tanhF
  let output_logits ← linear p.output_projW p.output_projB new_hidden_state
  return (output_logits, final_state)

/-! ### A concrete decoder instance for evaluating forward

    hidden_size 2 (so the decoder attends over encoder states of width 2),
    char_dim 3, output_size (vocabulary) 2, batch_size 1, en_seq_len 2.
    decoderB differs from decoderA only in the embedding table values. -/

def decoderA : CharDecoderModel :=
  { embedding := ⟨[2, 3], .float, [1, 2, 3, 4, 5, 6]⟩
    rnn := ⟨3, fun i hx => (i, hx)⟩
    attn_projW := ⟨[1, 4], .float, [0, 0, 0, 0]⟩
    attn_projB := ⟨[1], .float, [0]⟩
    concat_layerW := ⟨[2, 4], .float, [0, 0, 0, 0, 0, 0, 0, 0]⟩
    concat_layerB := ⟨[2], .float, [0, 0]⟩
    output_projW := ⟨[2, 2], .float, [0, 0, 0, 0]⟩
    output_projB := ⟨[2], .float, [0, 0]⟩
    msf := fun v _ => v
    tanhF := id }

def decoderB : CharDecoderModel :=
  { decoderA with embedding := ⟨[2, 3], .float, [7, 8, 9, 10, 11, 12]⟩ }

def charIn : Tensor := ⟨[1], .int, [0]⟩
def prevHIn : Tensor := ⟨[1, 1, 2], .float, [0, 0]⟩
def prevCIn : Tensor := ⟨[1, 1, 2], .float, [0, 0]⟩
def lensPos : Tensor := ⟨[1], .int, [2]⟩
def lensZero : Tensor := ⟨[1], .int, [0]⟩
def encHSIn : Tensor := ⟨[1, 2, 2], .float, [0, 0, 0, 0]⟩

/-- A well-formed attention-weight row (batch 1, one query, two encoder
    steps), used to evaluate lines 129-132 in isolation. -/
def attnWIn : Tensor := ⟨[1, 1, 2], .float, [1, 0]⟩

/-! ## train.py._get_datasets (lines 36-81)

    Python numeric semantics on the split arithmetic are embedded over the
    rationals: int() truncates toward zero and round() rounds half to even.
    The glob discovery, sort and seeded shuffle are deterministic given the
    seeded random state; the model receives the already sorted-and-shuffled
    video list.  The FrameCaption*Dataset constructors (src.data.data_loader,
    not part of src/) only wrap the video sublists, so the partitions are
    modelled as the sublists themselves. -/

/-- Python int() on a rational: truncation toward zero. -/
def pyInt (q : ℚ) : ℤ := if 0 ≤ q then ⌊q⌋ else -⌊-q⌋

/-- Python round() on a rational: round half to even. -/
def pyRound (q : ℚ) : ℤ :=
  let f := ⌊q⌋
  let r := q - f
  if r < 1/2 then f
  else if 1/2 < r then f + 1
  else if Even f then f else f + 1

/-- The hardcoded fallback alphabet _labels (train.py line 28): space, a
    punctuation subset, digits and lowercase letters. -/
def hardcodedLabels : List String :=
  [" ", "!", "\"", "#", "$", "%", "&", "\x27", "(", ")", "*", "+", ",", "-",
   ".", "/", "0", "1", "2", "3", "4", "5", "6", "7", "8", "9", ":", ";", "<",
   ">", "?", "@", "[", "]", "a", "b", "c", "d", "e", "f", "g", "h", "i", "j",
   "k", "l", "m", "n", "o", "p", "q", "r", "s", "t", "u", "v", "w", "x", "y",
   "z"]

structure SplitDatasets (α : Type) where
  labels : List String
  warnedFallback : Bool
  trainSet : List α
  valSet : List α
  testSet : List α
deriving DecidableEq, Repr

/-- Model of _get_datasets (train.py lines 36-81).  labelFile is the parsed content of
    labels.json when it could be opened, none when absent or unreadable; the
    try/except of lines 41-46 turns the latter into the hardcoded fallback
    plus a logged warning.  videos is the discovered video list after the
    deterministic sort and seeded shuffle of lines 50-56.  The two asserts
    (lines 51 and 61) are the fatal configuration checks, raised before any
    dataset is constructed. -/
def getDatasets {α : Type} (labelFile : Option (List String)) (videos : List α)
    (train_split : ℚ) : Except String (SplitDatasets α) :=
  let labelsWarn : List String × Bool :=
    match labelFile with
    | some ls => (ls, false)
    | none => (hardcodedLabels, true)
  if videos.length = 0 then .error "No video ids found" else
  let n : ℕ := videos.length
  let train_size : ℕ := (pyInt (train_split * n)).toNat
  let val_test_size : ℤ := pyRound ((n : ℚ) * (1 - train_split))
  if (train_size : ℤ) + val_test_size ≠ (n : ℤ) then
    .error "assert int(train_size + val_test_size) == len(videos)"
  else
    let val_size : ℕ := train_size + val_test_size.toNat / 2
    .ok { labels := labelsWarn.1
          warnedFallback := labelsWarn.2
          trainSet := videos.take train_size
          valSet := (videos.drop train_size).take (val_size - train_size)
          testSet := videos.drop val_size }

/-! ## train.py.train epoch loop (lines 177-209)

    The per-epoch work is done by src.train.train_better_model (not part of
    src/); its outputs are the per-epoch values below.  The loop body appends
    val_cer, test_cer and avg_decoder_loss to the driver lists; the line
    avg_ctc_loss.append(avg_ctc_loss) mutates only the freshly returned
    avg_ctc_loss object (it appends the list to itself) and never touches
    train_ctc_losses, so on the driver state it is a no-op. -/

structure EpochOutcome where
  valCer : ℚ
  testCer : ℚ
  avgDecoderLoss : ℚ
deriving DecidableEq, Repr

structure TrainStats where
  valCers : List ℚ
  testCers : List ℚ
  trainDecoderLosses : List ℚ
  trainCtcLosses : List ℚ
deriving DecidableEq, Repr

def epochStep (out : EpochOutcome) (st : TrainStats) : TrainStats :=
  { st with
    valCers := st.valCers ++ [out.valCer]
    testCers := st.testCers ++ [out.testCer]
    trainDecoderLosses := st.trainDecoderLosses ++ [out.avgDecoderLoss] }

/-- The epoch loop of train (train.py lines 183-200) starting from the four
    empty lists of lines 177-180. -/
def trainLoop (numEpochs : ℕ) (run : ℕ → EpochOutcome) : TrainStats :=
  (List.range numEpochs).foldl (fun st i => epochStep (run i) st)
    ⟨[], [], [], []⟩

/-- np.min: raises on an empty sequence. -/
def npMin (l : List ℚ) : Except String ℚ :=
  match l with
  | [] => .error "zero-size array to reduction operation minimum"
  | a :: rest => .ok (rest.foldl min a)

/-- The end-of-run summary (train.py lines 206-209): best val CER, best test
    CER, best decoder loss, best CTC loss, in print order. -/
def trainSummary (numEpochs : ℕ) (run : ℕ → EpochOutcome) :
    Except String (ℚ × ℚ × ℚ × ℚ) :=
  let st := trainLoop numEpochs run
  match npMin st.valCers with
  | .error e => .error e
  | .ok bestVal =>
    match npMin st.testCers with
    | .error e => .error e
    | .ok bestTest =>
      match npMin st.trainDecoderLosses with
      | .error e => .error e
      | .ok bestDecoder =>
        match npMin st.trainCtcLosses with
        | .error e => .error e
        | .ok bestCtc => .ok (bestVal, bestTest, bestDecoder, bestCtc)

/-! ## VideoEncoder.forward and _cat_directions (better_model.py lines 28-75)

    forward sorts the batch by descending length (allennlp
    sort_batch_by_length), packs the sorted padded frames, runs self.rnn on
    the packed sequence, re-pads with pad_packed_sequence, merges the
    bidirectional final states with _cat_directions, and restores the
    original batch order by index_select with the restoration indices (the
    inverse of the sorting permutation).

    The torch recurrent cell is an external collaborator.  Packed-sequence
    semantics make it act per sample: each sample contributes the cell
    outputs over its own valid (non-padded) prefix, independent of the other
    samples in the batch, and pad_packed_sequence pads every sample with
    zero rows up to the longest length in the batch.  The cell is therefore
    a parameter: per-sample per-timestep output rows (already
    direction-concatenated, width outDim = num_directions * hidden_size)
    and per-sample final-state rows (numDirLayers = num_layers *
    num_directions rows for each member of the LSTM (hidden, cell) pair,
    layer-major with forward/backward interleaved, each of width
    hidden_size).  pack_padded_sequence requires every length to be
    positive, which forward surfaces as an error. -/

structure EncRnn (V : Type) where
  numDirLayers : ℕ
  outDim : ℕ
  seqOut : List V → List (List ℚ)
  finH : ℕ → List V → List ℚ
  finC : ℕ → List V → List ℚ

/-- Zero-padding of one sample row list up to the padded time dimension
    (pad_packed_sequence). -/
def padTo (w T : ℕ) (rows : List (List ℚ)) : List (List ℚ) :=
  rows ++ List.replicate (T - rows.length) (List.replicate w 0)

/-- Elements at indices 0, 2, 4, ...: the extended slice s[0:n:2]. -/
def everyOther {α : Type} : List α → List α
  | [] => []
  | [a] => [a]
  | a :: _ :: rest => a :: everyOther rest

/-- The inner _cat of _cat_directions (better_model.py lines 67-68):
    torch.cat([s[0:n:2], s[1:n:2]], dim=2), with the layer-direction
    dimension as a list and the batch dimension indexed by Fin B. -/
def catDirState {B : ℕ} (s : List (Fin B → List ℚ)) : List (Fin B → List ℚ) :=
  List.zipWith (fun f g => fun b => f b ++ g b) (everyOther s)
    (everyOther (s.drop 1))

/-- Model of _cat_directions (better_model.py lines 61-75) in the LSTM branch:
    _cat applied to both members of the (hidden, cell) final-state pair. -/
def catDirections {B : ℕ}
    (final_state : List (Fin B → List ℚ) × List (Fin B → List ℚ)) :
    List (Fin B → List ℚ) × List (Fin B → List ℚ) :=
  (catDirState final_state.1, catDirState final_state.2)

/-- Modelled from the spec: the sorting permutation of allennlp
    sort_batch_by_length, which is not code of this repository.  It sorts
    the batch by decreasing length and records the inverse permutation
    (restoration_indices) for unsorting. -/
noncomputable def sortPerm {B : ℕ} (frame_lens : Fin B → ℕ) :
    Equiv.Perm (Fin B) :=
  Tuple.sort (fun i => OrderDual.toDual (frame_lens i))

/-- The padded time dimension after pad_packed_sequence: the longest valid
    length in the batch. -/
def maxLen {B : ℕ} (frame_lens : Fin B → ℕ) : ℕ := Finset.univ.sup frame_lens

@[ext]
structure EncOut (B : ℕ) where
  hidden_states : Fin B → List (List ℚ)
  final_state : List (Fin B → List ℚ) × List (Fin B → List ℚ)

/-- VideoEncoder.forward (better_model.py lines 28-59), for the LSTM cell
    (final state a (hidden, cell) pair) with bidirectional controlling the
    _cat_directions branch of line 49.  Steps in source order: sort by
    descending length, pack (each sorted sample reduced to its valid
    prefix), run the rnn, re-pad to the longest length, merge directions
    when bidirectional, and restore the original order by composing with
    the inverse of the sorting permutation on the batch dimension
    (index_select 0 for hidden_states, index_select 1 for each final-state
    tensor). -/
noncomputable def VideoEncoder.forward {V : Type} {B : ℕ} (bidirectional : Bool)
    (rnn : EncRnn V) (frames : Fin B → List V) (frame_lens : Fin B → ℕ) :
    Except String (EncOut B) :=
  if ∀ i, 0 < frame_lens i then
    let σ := sortPerm frame_lens
    let packedSample : Fin B → List V :=
      fun j => (frames (σ j)).take (frame_lens (σ j))
    let hidden_states : Fin B → List (List ℚ) :=
      fun j => padTo rnn.outDim (maxLen frame_lens) (rnn.seqOut (packedSample j))
    let final_state0 : List (Fin B → List ℚ) × List (Fin B → List ℚ) :=
      ((List.range rnn.numDirLayers).map
          (fun d => fun j => rnn.finH d (packedSample j)),
       (List.range rnn.numDirLayers).map
          (fun d => fun j => rnn.finC d (packedSample j)))
    let final_state :=
      if bidirectional then catDirections final_state0 else final_state0
    .ok { hidden_states := fun i => hidden_states (σ.symm i)
          final_state :=
            (final_state.1.map (fun row => fun i => row (σ.symm i)),
             final_state.2.map (fun row => fun i => row (σ.symm i))) }
  else .error "Length of all samples has to be greater than 0"

/-- Application of the inverse of a batch permutation to the encoder
    outputs (hidden states and both final-state tensors). -/
def unpermuteOut {B : ℕ} (τ : Equiv.Perm (Fin B)) (o : EncOut B) : EncOut B :=
  { hidden_states := fun i => o.hidden_states (τ.symm i)
    final_state :=
      (o.final_state.1.map (fun row => fun i => row (τ.symm i)),
       o.final_state.2.map (fun row => fun i => row (τ.symm i))) }

/-! ## Attention mask and masked softmax (better_model.py lines 111 and 127)

    CharDecoder.forward builds the validity mask
    torch.arange(en_seq_len).expand(batch_size, en_seq_len) <
    encoder_lens.unsqueeze(dim=1) and feeds the attention logits and this
    mask to masked_softmax.  The mask entry for sample i at time t is
    t < encoder_lens[i]. -/

def encoderMask {B T : ℕ} (encoder_lens : Fin B → ℕ) (i : Fin B) (t : Fin T) :
    Bool :=
  decide ((t : ℕ) < encoder_lens i)

/-- Modelled from the spec: masked_softmax is imported from allennlp.nn.util
    and is not code of this repository.  The spec describes it as a softmax
    restricted to the valid positions, with masked positions receiving
    exactly zero probability (exact renormalization over the valid set) and
    an all-invalid row producing zeros rather than NaN.  The float tensor
    arithmetic is idealized over the reals; with an all-false mask every
    entry takes the else branch, giving the all-zero fallback. -/
noncomputable def masked_softmax {T : ℕ} (vector : Fin T → ℝ)
    (mask : Fin T → Bool) : Fin T → ℝ := fun t =>
  if mask t then
    Real.exp (vector t) /
      ∑ s ∈ Finset.univ.filter (fun s => mask s = true), Real.exp (vector s)
  else 0

/-- The attention weights computed on better_model.py line 127 for one
    decoding step: masked softmax of the attention logits under the
    line-111 mask, one row per sample. -/
noncomputable def attnWeights {B T : ℕ} (encoder_lens : Fin B → ℕ)
    (attn_logits : Fin B → Fin T → ℝ) (i : Fin B) : Fin T → ℝ :=
  masked_softmax (attn_logits i) (encoderMask encoder_lens i)

/-! ## Helper lemmas -/

theorem foldl_epochStep (run : ℕ → EpochOutcome) :
    ∀ (l : List ℕ) (st : TrainStats),
      l.foldl (fun st i => epochStep (run i) st) st =
        { valCers := st.valCers ++ l.map (fun i => (run i).valCer)
          testCers := st.testCers ++ l.map (fun i => (run i).testCer)
          trainDecoderLosses :=
            st.trainDecoderLosses ++ l.map (fun i => (run i).avgDecoderLoss)
          trainCtcLosses := st.trainCtcLosses }
  | [], st => by simp
  | a :: t, st => by
      simp only [List.foldl_cons, foldl_epochStep run t, List.map_cons]
      simp [epochStep]

theorem trainLoop_eq (numEpochs : ℕ) (run : ℕ → EpochOutcome) :
    trainLoop numEpochs run =
      { valCers := (List.range numEpochs).map (fun i => (run i).valCer)
        testCers := (List.range numEpochs).map (fun i => (run i).testCer)
        trainDecoderLosses :=
          (List.range numEpochs).map (fun i => (run i).avgDecoderLoss)
        trainCtcLosses := [] } := by
  simp [trainLoop, foldl_epochStep]

theorem npMin_of_ne_nil {l : List ℚ} (h : l ≠ []) : ∃ q, npMin l = .ok q := by
  cases l with
  | nil => exact absurd rfl h
  | cons a t => exact ⟨t.foldl min a, rfl⟩

theorem everyOther_map {α β : Type} (f : α → β) :
    ∀ l : List α, everyOther (l.map f) = (everyOther l).map f
  | [] => rfl
  | [_] => rfl
  | a :: b :: rest => by
      simp only [List.map_cons, everyOther, everyOther_map f rest]

theorem catDirState_map_precomp {B : ℕ} (g : Fin B → Fin B)
    (s : List (Fin B → List ℚ)) :
    (catDirState s).map (fun row => fun i => row (g i))
      = catDirState (s.map (fun row => fun i => row (g i))) := by
  simp only [catDirState]
  rw [← List.map_drop, everyOther_map, everyOther_map]
  rw [List.map_zipWith, List.zipWith_map]

theorem catDirState_cons₂ {B : ℕ} (a b : Fin B → List ℚ)
    (t : List (Fin B → List ℚ)) :
    catDirState (a :: b :: t) = (fun i => a i ++ b i) :: catDirState t := by
  cases t with
  | nil => rfl
  | cons c t2 => rfl

theorem catDirState_range' {B : ℕ} (F : ℕ → Fin B → List ℚ) :
    ∀ (L s : ℕ), catDirState ((List.range' s (2 * L)).map F)
      = (List.range L).map
          (fun k => fun i => F (s + 2 * k) i ++ F (s + 2 * k + 1) i)
  | 0, s => by simp [catDirState, everyOther]
  | L + 1, s => by
      have h2 : 2 * (L + 1) = (2 * L + 1) + 1 := by omega
      rw [h2, List.range'_succ, List.range'_succ, List.map_cons, List.map_cons,
        catDirState_cons₂, catDirState_range' F L (s + 1 + 1),
        List.range_succ_eq_map, List.map_cons, List.map_map]
      refine congrArg₂ List.cons ?_ ?_
      · funext i
        norm_num
      · refine List.map_congr_left fun k _ => ?_
        funext i
        have e1 : s + 1 + 1 + 2 * k = s + 2 * (k + 1) := by omega
        have e2 : s + 1 + 1 + 2 * k + 1 = s + 2 * (k + 1) + 1 := by omega
        simp [Function.comp, e1, e2]

theorem catDirState_range {B : ℕ} (F : ℕ → Fin B → List ℚ) (L : ℕ) :
    catDirState ((List.range (2 * L)).map F)
      = (List.range L).map (fun k => fun i => F (2 * k) i ++ F (2 * k + 1) i) := by
  rw [List.range_eq_range', catDirState_range' F L 0]
  simp

theorem maxLen_comp_perm {B : ℕ} (τ : Equiv.Perm (Fin B)) (lens : Fin B → ℕ) :
    maxLen (fun i => lens (τ i)) = maxLen lens := by
  simp only [maxLen]
  apply le_antisymm
  · exact Finset.sup_le fun i _ => Finset.le_sup (Finset.mem_univ (τ i))
  · refine Finset.sup_le fun i _ => ?_
    have h := Finset.le_sup (f := fun i => lens (τ i)) (Finset.mem_univ (τ.symm i))
    simpa using h

/-- Canonical per-sample form of VideoEncoder.forward on positive lengths:
    the sorting permutation and its inverse cancel, leaving each output row
    a function of the corresponding input sample alone. -/
theorem VideoEncoder.forward_canonical {V : Type} {B : ℕ} (bidirectional : Bool)
    (rnn : EncRnn V) (frames : Fin B → List V) (frame_lens : Fin B → ℕ)
    (h : ∀ i, 0 < frame_lens i) :
    VideoEncoder.forward bidirectional rnn frames frame_lens = .ok
      { hidden_states := fun i => padTo rnn.outDim (maxLen frame_lens)
          (rnn.seqOut ((frames i).take (frame_lens i)))
        final_state :=
          (if bidirectional then
            catDirections
              ((List.range rnn.numDirLayers).map
                  (fun d => fun i => rnn.finH d ((frames i).take (frame_lens i))),
               (List.range rnn.numDirLayers).map
                  (fun d => fun i => rnn.finC d ((frames i).take (frame_lens i))))
          else
            ((List.range rnn.numDirLayers).map
                (fun d => fun i => rnn.finH d ((frames i).take (frame_lens i))),
             (List.range rnn.numDirLayers).map
                (fun d => fun i => rnn.finC d ((frames i).take (frame_lens i))))) } := by
  rw [VideoEncoder.forward, if_pos h]
  refine congrArg Except.ok ?_
  ext i : 2
  · simp
  · cases bidirectional with
    | false =>
        simp only [Bool.false_eq_true, if_false, List.map_map]
        refine List.map_congr_left fun d _ => ?_
        funext j
        simp
    | true =>
        simp only [if_true, catDirections]
        rw [catDirState_map_precomp, List.map_map]
        refine congrArg catDirState ?_
        refine List.map_congr_left fun d _ => ?_
        funext j
        simp
  · cases bidirectional with
    | false =>
        simp only [Bool.false_eq_true, if_false, List.map_map]
        refine List.map_congr_left fun d _ => ?_
        funext j
        simp
    | true =>
        simp only [if_true, catDirections]
        rw [catDirState_map_precomp, List.map_map]
        refine congrArg catDirState ?_
        refine List.map_congr_left fun d _ => ?_
        funext j
        simp

theorem pyInt_toNat_le (s : ℚ) (n : ℕ) (hs0 : 0 ≤ s) (hs1 : s ≤ 1) :
    (pyInt (s * n)).toNat ≤ n := by
  have hsn0 : (0 : ℚ) ≤ s * n := mul_nonneg hs0 (by positivity)
  have hfloor : pyInt (s * (n : ℚ)) = ⌊s * (n : ℚ)⌋ := by
    rw [pyInt, if_pos hsn0]
  have hmul : s * (n : ℚ) ≤ (n : ℚ) := by
    calc s * (n : ℚ) ≤ 1 * (n : ℚ) :=
          mul_le_mul_of_nonneg_right hs1 (by positivity)
      _ = (n : ℚ) := one_mul _
  have hle : ⌊s * (n : ℚ)⌋ ≤ (n : ℤ) := by
    have := Int.floor_le_floor hmul
    rwa [Int.floor_natCast] at this
  rw [hfloor]
  exact Int.toNat_le.mpr hle

/-! ## Claim theorems -/

/-- C7: for every argument assignment, the driver model construction raises
    before any training occurs: the VideoEncoder call in _init_models passes
    the keyword argument enable_ctc that VideoEncoder.__init__ does not
    accept (TypeError); moreover CharDecodingStep is not defined by the model
    module (which defines CharDecoder instead), the __init__ body reads
    self.frame_dim which it never assigns (AttributeError when run), and the
    body starts with the instance-less super(VideoEncoder).__init__() so
    nn.Module.__init__ never runs on self. -/
theorem init_models_raises :
    initModels = .error (.typeError "unexpected keyword argument enable_ctc")
    ∧ "CharDecodingStep" ∉ betterModelDefs
    ∧ "CharDecoder" ∈ betterModelDefs
    ∧ "enable_ctc" ∈ initModelsEncoderKwargs
    ∧ "enable_ctc" ∉ videoEncoderInitParams
    ∧ "vocab_size" ∉ videoEncoderInitParams
    ∧ "char2idx" ∉ videoEncoderInitParams
    ∧ runInit videoEncoderInitBody ⟨[], false⟩ =
        .error (.attributeError "VideoEncoder object has no attribute frame_dim")
    ∧ InitStmt.superInitNoInstance ∈ videoEncoderInitBody
    ∧ InitStmt.assignAttr "frame_dim" ∉ videoEncoderInitBody :=
  ⟨rfl, by decide, by decide, by decide, by decide, by decide, by decide,
   rfl, by decide, by decide⟩

/-- C10: the code bug behind the claim, evaluated on the driver model.  The
    epoch loop appends one element per epoch to train_decoder_losses but the
    line avg_ctc_loss.append(avg_ctc_loss) appends the freshly returned CTC
    value to itself, so train_ctc_losses remains empty for every run and the
    end-of-run summary, which takes np.min of it, raises instead of
    reporting a best CTC loss. -/
theorem ctc_loss_never_accumulated (numEpochs : ℕ) (run : ℕ → EpochOutcome)
    (h : 0 < numEpochs) :
    (trainLoop numEpochs run).trainCtcLosses = []
    ∧ (trainLoop numEpochs run).trainDecoderLosses.length = numEpochs
    ∧ trainSummary numEpochs run =
        .error "zero-size array to reduction operation minimum" := by
  refine ⟨by simp [trainLoop_eq], by simp [trainLoop_eq], ?_⟩
  have hlen : (List.range numEpochs).map (fun i => (run i).valCer) ≠ [] := by
    intro hcon
    have := congrArg List.length hcon
    simp at this
    omega
  have hlen2 : (List.range numEpochs).map (fun i => (run i).testCer) ≠ [] := by
    intro hcon
    have := congrArg List.length hcon
    simp at this
    omega
  have hlen3 : (List.range numEpochs).map (fun i => (run i).avgDecoderLoss) ≠ [] := by
    intro hcon
    have := congrArg List.length hcon
    simp at this
    omega
  obtain ⟨q1, hq1⟩ := npMin_of_ne_nil hlen
  obtain ⟨q2, hq2⟩ := npMin_of_ne_nil hlen2
  obtain ⟨q3, hq3⟩ := npMin_of_ne_nil hlen3
  simp only [trainSummary, trainLoop_eq]
  rw [hq1, hq2, hq3]
  rfl

/-- C3: the claim fails on the code.  CharDecoder.forward computes
    embedded_char on line 114 and never uses it: line 120 advances the
    recurrent cell on the raw unsqueezed character-index tensor, which is
    2-D and integral instead of a 3-D float tensor of width char_dim, so
    the recurrent call raises the torch input-dimension error; and the
    outcome is identical under a different embedding table even though the
    two tables embed the input character differently. -/
theorem decoder_rnn_ignores_embedding :
    CharDecoder.forward decoderA charIn prevHIn prevCIn lensPos encHSIn
        = .error "input must have 3 dimensions, got 2"
    ∧ CharDecoder.forward decoderB charIn prevHIn prevCIn lensPos encHSIn
        = CharDecoder.forward decoderA charIn prevHIn prevCIn lensPos encHSIn
    ∧ embeddingLookup decoderA.embedding charIn
        = .ok ⟨[1, 3], .float, [1, 2, 3]⟩
    ∧ embeddingLookup decoderB.embedding charIn
        = .ok ⟨[1, 3], .float, [7, 8, 9]⟩ :=
  ⟨rfl, rfl, rfl, rfl⟩

/-- C4: the claim fails on the code.  CharDecoder.forward never returns
    logits: it raises in the recurrent call of line 120 on every input
    (2-D integral input).  Moreover, even with a well-formed context path,
    line 129 unsqueezes the bmm result to a rank-4 tensor of shape
    (batch, 1, 1, hidden) — contradicting the comment (batch_size,
    hidden_size) above it — so the torch.cat of line 132 with the 2-D
    squeezed hidden state would raise a rank-mismatch error. -/
theorem decoder_step_returns_no_logits :
    CharDecoder.forward decoderA charIn prevHIn prevCIn lensPos encHSIn
        = .error "input must have 3 dimensions, got 2"
    ∧ (Tensor.bmm attnWIn encHSIn).map (fun c => (c.unsqueeze 1).rank)
        = .ok 4
    ∧ (Tensor.bmm attnWIn encHSIn).map (fun c => (c.unsqueeze 1).shape)
        = .ok [1, 1, 1, 2]
    ∧ Tensor.cat2 ((⟨[1, 1, 2], .float, [0, 0]⟩ : Tensor).unsqueeze 1)
        (prevHIn.squeezeDim 1) 1
        = .error "Tensors must have same number of dimensions" :=
  ⟨rfl, rfl, rfl, rfl⟩

/-- C5: the claim fails on the code.  The spec-modelled masked softmax does
    have the all-zero fallback for a sample with encoder length 0 (second
    conjunct), but CharDecoder.forward never returns output logits for any
    input, including a batch whose encoder_lengths contain 0: it raises in
    the recurrent call of line 120 before the attention fallback could
    apply. -/
theorem zero_length_decoder_step_errors :
    CharDecoder.forward decoderA charIn prevHIn prevCIn lensZero encHSIn
        = .error "input must have 3 dimensions, got 2"
    ∧ (∀ t : Fin 2, masked_softmax (fun _ => (0 : ℝ))
        (encoderMask (fun _ : Fin 1 => 0) 0) t = 0) :=
  ⟨rfl, by
    intro t
    simp [masked_softmax, encoderMask]⟩

/-- C2: VideoEncoder.forward returns hidden_states and final_state in the
    original batch order: permuting the input samples (frames and lengths
    together) and applying the inverse permutation to the outputs yields the
    same hidden_states and final_state as encoding the unpermuted batch.
    This exercises the sort/pack/unsort pipeline: the sorting permutation of
    the permuted batch differs from that of the original batch, and the
    restoration indices recorded at sort time cancel it. -/
theorem encoder_batch_order_invariant {V : Type} {B : ℕ} (bidirectional : Bool)
    (rnn : EncRnn V) (frames : Fin B → List V) (frame_lens : Fin B → ℕ)
    (τ : Equiv.Perm (Fin B)) :
    (VideoEncoder.forward bidirectional rnn (fun i => frames (τ i))
        (fun i => frame_lens (τ i))).map (unpermuteOut τ)
      = VideoEncoder.forward bidirectional rnn frames frame_lens := by
  by_cases h : ∀ i, 0 < frame_lens i
  · have hτ : ∀ i, 0 < frame_lens (τ i) := fun i => h (τ i)
    rw [VideoEncoder.forward_canonical bidirectional rnn _ _ hτ,
      VideoEncoder.forward_canonical bidirectional rnn frames frame_lens h]
    simp only [Except.map]
    refine congrArg Except.ok ?_
    ext i : 2
    · simp only [unpermuteOut]
      rw [maxLen_comp_perm]
      simp
    · simp only [unpermuteOut]
      cases bidirectional with
      | false =>
          simp only [Bool.false_eq_true, if_false, List.map_map]
          refine List.map_congr_left fun d _ => ?_
          funext j
          simp
      | true =>
          simp only [if_true, catDirections]
          rw [catDirState_map_precomp, List.map_map]
          refine congrArg catDirState ?_
          refine List.map_congr_left fun d _ => ?_
          funext j
          simp
    · simp only [unpermuteOut]
      cases bidirectional with
      | false =>
          simp only [Bool.false_eq_true, if_false, List.map_map]
          refine List.map_congr_left fun d _ => ?_
          funext j
          simp
      | true =>
          simp only [if_true, catDirections]
          rw [catDirState_map_precomp, List.map_map]
          refine congrArg catDirState ?_
          refine List.map_congr_left fun d _ => ?_
          funext j
          simp
  · have hτ : ¬∀ i, 0 < frame_lens (τ i) := by
      intro hcon
      refine h fun i => ?_
      have hi := hcon (τ.symm i)
      simpa using hi
    simp only [VideoEncoder.forward, if_neg hτ, if_neg h, Except.map]

/-- C6: with a bidirectional cell, VideoEncoder.forward concatenates the
    forward and backward final states of each layer along the feature
    dimension, so each final-state tensor of the (hidden, cell) pair is a
    list of num_layers rows whose per-sample vectors have width
    2 * hidden_size, while hidden_states has the longest batch length in
    the time dimension and width 2 * hidden_size.  The shape hypotheses are
    the torch contract for the bidirectional cell output. -/
theorem bidirectional_final_state_concat {V : Type} {B L H : ℕ}
    (rnn : EncRnn V) (frames : Fin B → List V) (frame_lens : Fin B → ℕ)
    (hDL : rnn.numDirLayers = 2 * L)
    (hout : rnn.outDim = 2 * H)
    (hseqLen : ∀ xs, (rnn.seqOut xs).length = xs.length)
    (hseqW : ∀ xs, ∀ row ∈ rnn.seqOut xs, row.length = 2 * H)
    (hfinH : ∀ d xs, (rnn.finH d xs).length = H)
    (hfinC : ∀ d xs, (rnn.finC d xs).length = H)
    (hpos : ∀ i, 0 < frame_lens i)
    (hle : ∀ i, frame_lens i ≤ (frames i).length) :
    VideoEncoder.forward true rnn frames frame_lens = .ok
      { hidden_states := fun i => padTo rnn.outDim (maxLen frame_lens)
          (rnn.seqOut ((frames i).take (frame_lens i)))
        final_state :=
          ((List.range L).map (fun l => fun i =>
              rnn.finH (2 * l) ((frames i).take (frame_lens i))
                ++ rnn.finH (2 * l + 1) ((frames i).take (frame_lens i))),
           (List.range L).map (fun l => fun i =>
              rnn.finC (2 * l) ((frames i).take (frame_lens i))
                ++ rnn.finC (2 * l + 1) ((frames i).take (frame_lens i)))) }
    ∧ (∀ i, (padTo rnn.outDim (maxLen frame_lens)
        (rnn.seqOut ((frames i).take (frame_lens i)))).length
          = maxLen frame_lens)
    ∧ (∀ i, ∀ row ∈ padTo rnn.outDim (maxLen frame_lens)
        (rnn.seqOut ((frames i).take (frame_lens i))), row.length = 2 * H)
    ∧ (∀ l, ∀ i : Fin B,
        (rnn.finH (2 * l) ((frames i).take (frame_lens i))
          ++ rnn.finH (2 * l + 1) ((frames i).take (frame_lens i))).length
            = 2 * H)
    ∧ (∀ l, ∀ i : Fin B,
        (rnn.finC (2 * l) ((frames i).take (frame_lens i))
          ++ rnn.finC (2 * l + 1) ((frames i).take (frame_lens i))).length
            = 2 * H)
    ∧ ((List.range L).map (fun l => fun i : Fin B =>
        rnn.finH (2 * l) ((frames i).take (frame_lens i))
          ++ rnn.finH (2 * l + 1) ((frames i).take (frame_lens i)))).length
            = L := by
  refine ⟨?_, ?_, ?_, ?_, ?_, ?_⟩
  · rw [VideoEncoder.forward_canonical true rnn frames frame_lens hpos]
    refine congrArg Except.ok ?_
    ext i : 2
    · rfl
    · simp only [if_true, catDirections, hDL]
      rw [catDirState_range]
    · simp only [if_true, catDirections, hDL]
      rw [catDirState_range]
  · intro i
    have h1 : frame_lens i ≤ maxLen frame_lens := Finset.le_sup (Finset.mem_univ i)
    have h2 := hle i
    simp [padTo, hseqLen, List.length_take]
    omega
  · intro i row hrow
    simp only [padTo] at hrow
    rcases List.mem_append.mp hrow with hmem | hmem
    · exact hseqW _ row hmem
    · have hrep := List.eq_of_mem_replicate hmem
      subst hrep
      simp [hout]
  · intro l i
    simp [hfinH]
    omega
  · intro l i
    simp [hfinC]
    omega
  · simp

theorem bidirectional_final_state_concat_witness :
    (VideoEncoder.forward true
        ⟨2, 16, fun xs => xs.map (fun _ => List.replicate 16 (0 : ℚ)),
          fun _ _ => List.replicate 8 0, fun _ _ => List.replicate 8 0⟩
        (fun _ : Fin 2 => List.replicate 5 (List.replicate 4 (0 : ℚ)))
        ![5, 3]).map (fun o =>
          ((o.hidden_states 0).length, (o.hidden_states 1).length,
            (o.hidden_states 0).map List.length,
            o.final_state.1.length, o.final_state.2.length,
            o.final_state.1.map (fun row => ((row 0).length, (row 1).length))))
      = .ok (5, 5, [16, 16, 16, 16, 16], 1, 1, [(16, 16)]) := by
  obtain ⟨hok, hhl, hhw, hfw, hcw, hfl⟩ :=
    bidirectional_final_state_concat (L := 1) (H := 8)
      ⟨2, 16, fun xs => xs.map (fun _ => List.replicate 16 (0 : ℚ)),
        fun _ _ => List.replicate 8 0, fun _ _ => List.replicate 8 0⟩
      (fun _ : Fin 2 => List.replicate 5 (List.replicate 4 (0 : ℚ)))
      ![5, 3]
      (by norm_num) (by norm_num)
      (by intro xs; simp)
      (by intro xs row hrow; obtain ⟨a, -, rfl⟩ := List.mem_map.mp hrow; simp)
      (by intro d xs; simp)
      (by intro d xs; simp)
      (by decide)
      (by decide)
  rw [hok]
  simp only [Except.map]
  refine congrArg Except.ok ?_
  refine Prod.ext ?_ (Prod.ext ?_ (Prod.ext ?_ (Prod.ext ?_ (Prod.ext ?_ ?_)))) <;>
    decide

/-- C1: for every decoding step and every sample i with encoder_lengths
    i > 0 (and within the padded time dimension), the attention weights of
    the masked softmax form a probability distribution over exactly the
    valid encoder timesteps: every position at or past encoder_lengths i has
    weight exactly zero, and the weights over positions before
    encoder_lengths i sum to 1. -/
theorem attention_mass_on_valid_positions {B T : ℕ} (encoder_lens : Fin B → ℕ)
    (attn_logits : Fin B → Fin T → ℝ) (i : Fin B)
    (hpos : 0 < encoder_lens i) (hle : encoder_lens i ≤ T) :
    (∀ t : Fin T, encoder_lens i ≤ (t : ℕ) →
        attnWeights encoder_lens attn_logits i t = 0)
    ∧ ∑ t ∈ Finset.univ.filter (fun t : Fin T => (t : ℕ) < encoder_lens i),
        attnWeights encoder_lens attn_logits i t = 1 := by
  constructor
  · intro t ht
    have hmask : encoderMask encoder_lens i t = false := by
      simp only [encoderMask, decide_eq_false_iff_not]
      omega
    simp [attnWeights, masked_softmax, hmask]
  · have hseteq : Finset.univ.filter (fun t : Fin T => (t : ℕ) < encoder_lens i)
        = Finset.univ.filter
            (fun s : Fin T => encoderMask encoder_lens i s = true) := by
      apply Finset.filter_congr
      intro x _
      simp [encoderMask]
    have hD : (0 : ℝ) < ∑ s ∈ Finset.univ.filter
        (fun s : Fin T => encoderMask encoder_lens i s = true),
          Real.exp (attn_logits i s) := by
      apply Finset.sum_pos
      · intro s _
        exact Real.exp_pos _
      · refine ⟨⟨0, lt_of_lt_of_le hpos hle⟩, ?_⟩
        simp only [Finset.mem_filter, Finset.mem_univ, true_and, encoderMask,
          decide_eq_true_eq]
        exact hpos
    rw [hseteq]
    have hterm : ∀ t ∈ Finset.univ.filter
        (fun s : Fin T => encoderMask encoder_lens i s = true),
        attnWeights encoder_lens attn_logits i t
          = Real.exp (attn_logits i t) /
              ∑ s ∈ Finset.univ.filter
                (fun s : Fin T => encoderMask encoder_lens i s = true),
                Real.exp (attn_logits i s) := by
      intro t ht
      have hm : encoderMask encoder_lens i t = true := (Finset.mem_filter.mp ht).2
      simp [attnWeights, masked_softmax, hm]
    rw [Finset.sum_congr rfl hterm, ← Finset.sum_div]
    exact div_self (ne_of_gt hD)

theorem attention_mass_on_valid_positions_witness :
    ((0 : ℕ) < 1 ∧ (1 : ℕ) ≤ 2)
    ∧ ∑ t ∈ Finset.univ.filter
        (fun t : Fin 2 => (t : ℕ) < (fun _ : Fin 1 => 1) 0),
        attnWeights (fun _ : Fin 1 => 1) (fun _ _ => (0 : ℝ)) 0 t = 1 :=
  ⟨⟨by decide, by decide⟩,
    (attention_mass_on_valid_positions (fun _ : Fin 1 => 1)
      (fun _ _ => (0 : ℝ)) 0 (by decide) (by decide)).2⟩

/-- C8: _get_datasets, on a nonempty (shuffled) video list and a valid train
    fraction, errors on an empty video list, errors when the computed split
    sizes do not sum to the whole set, and otherwise partitions the list:
    the train set is the first int(train_split times n) videos, the three
    partitions concatenate back to the whole list (so every video is in
    exactly one partition), and the remainder is split evenly between
    validation and test (their sizes differ by at most one, validation
    taking the floor half). -/
theorem get_datasets_partition {α : Type} (labelFile : Option (List String))
    (videos : List α) (s : ℚ) (hs0 : 0 ≤ s) (hs1 : s ≤ 1) :
    (videos = [] → getDatasets labelFile videos s = .error "No video ids found")
    ∧ (∀ r, getDatasets labelFile videos s = .ok r →
        r.trainSet = videos.take (pyInt (s * videos.length)).toNat
        ∧ r.trainSet ++ r.valSet ++ r.testSet = videos
        ∧ r.trainSet.length = (pyInt (s * videos.length)).toNat
        ∧ r.valSet.length ≤ r.testSet.length
        ∧ r.testSet.length ≤ r.valSet.length + 1)
    ∧ (videos ≠ [] →
        ((pyInt (s * videos.length)).toNat : ℤ)
            + pyRound ((videos.length : ℚ) * (1 - s)) ≠ (videos.length : ℤ) →
        getDatasets labelFile videos s =
          .error "assert int(train_size + val_test_size) == len(videos)") := by
  refine ⟨?_, ?_, ?_⟩
  · intro hv
    subst hv
    simp [getDatasets]
  · intro r hr
    simp only [getDatasets] at hr
    split at hr
    · simp at hr
    · split at hr
      · simp at hr
      · rename_i hlen0 hasrt
        rw [Except.ok.injEq] at hr
        subst hr
        have hA_le : (pyInt (s * videos.length)).toNat ≤ videos.length :=
          pyInt_toNat_le s videos.length hs0 hs1
        have heq : ((pyInt (s * videos.length)).toNat : ℤ)
            + pyRound ((videos.length : ℚ) * (1 - s)) = (videos.length : ℤ) := by
          exact not_not.mp hasrt
        refine ⟨rfl, ?_, ?_, ?_, ?_⟩
        · have h1 : (pyInt (s * videos.length)).toNat
              + (pyRound ((videos.length : ℚ) * (1 - s))).toNat / 2
              - (pyInt (s * videos.length)).toNat
              = (pyRound ((videos.length : ℚ) * (1 - s))).toNat / 2 := by omega
          rw [h1]
          have h2 : videos.drop ((pyInt (s * videos.length)).toNat
              + (pyRound ((videos.length : ℚ) * (1 - s))).toNat / 2)
              = (videos.drop (pyInt (s * videos.length)).toNat).drop
                  ((pyRound ((videos.length : ℚ) * (1 - s))).toNat / 2) := by
            rw [List.drop_drop]
          rw [h2, List.append_assoc, List.take_append_drop, List.take_append_drop]
        · simp only [List.length_take]
          omega
        · simp only [List.length_take, List.length_drop]
          omega
        · simp only [List.length_take, List.length_drop]
          omega
  · intro hv hasrt
    have hlen0 : ¬videos.length = 0 := by
      simpa [List.length_eq_zero] using hv
    simp only [getDatasets]
    rw [if_neg hlen0, if_pos hasrt]

theorem get_datasets_partition_witness :
    ((0 : ℚ) ≤ 4/5 ∧ (4/5 : ℚ) ≤ 1)
    ∧ [0, 1, 2, 3] ++ ([] : List ℕ) ++ [4] = [0, 1, 2, 3, 4] :=
  ⟨⟨by norm_num, by norm_num⟩,
    ((get_datasets_partition none [0, 1, 2, 3, 4] (4/5) (by norm_num)
        (by norm_num)).2.1
      ⟨hardcodedLabels, true, [0, 1, 2, 3], [], [4]⟩
      (by norm_num [getDatasets, pyInt, pyRound]; decide)).2.1⟩

/-- C9: when the vocabulary label file is absent or unreadable,
    _get_datasets does not fail on it: the try/except falls back to the
    hardcoded default alphabet with a logged warning, then proceeds to
    construct the dataset partitions as usual. -/
theorem get_datasets_label_fallback {α : Type} (videos : List α) (s : ℚ)
    (hne : videos.length ≠ 0)
    (hsz : ((pyInt (s * videos.length)).toNat : ℤ)
        + pyRound ((videos.length : ℚ) * (1 - s)) = (videos.length : ℤ)) :
    getDatasets none videos s = .ok
      { labels := hardcodedLabels
        warnedFallback := true
        trainSet := videos.take (pyInt (s * videos.length)).toNat
        valSet := (videos.drop (pyInt (s * videos.length)).toNat).take
          ((pyInt (s * videos.length)).toNat
            + (pyRound ((videos.length : ℚ) * (1 - s))).toNat / 2
            - (pyInt (s * videos.length)).toNat)
        testSet := videos.drop ((pyInt (s * videos.length)).toNat
          + (pyRound ((videos.length : ℚ) * (1 - s))).toNat / 2) } := by
  simp only [getDatasets]
  rw [if_neg hne, if_neg (not_not_intro hsz)]

theorem get_datasets_label_fallback_witness :
    (([0, 1, 2, 3, 4] : List ℕ).length ≠ 0
      ∧ ((pyInt ((4/5) * (([0, 1, 2, 3, 4] : List ℕ).length : ℚ))).toNat : ℤ)
          + pyRound ((([0, 1, 2, 3, 4] : List ℕ).length : ℚ) * (1 - 4/5))
          = (([0, 1, 2, 3, 4] : List ℕ).length : ℤ))
    ∧ getDatasets none ([0, 1, 2, 3, 4] : List ℕ) (4/5) = .ok
        { labels := hardcodedLabels
          warnedFallback := true
          trainSet := [0, 1, 2, 3]
          valSet := []
          testSet := [4] } :=
  ⟨⟨by norm_num, by norm_num [pyInt, pyRound]⟩, by
    rw [get_datasets_label_fallback [0, 1, 2, 3, 4] (4/5) (by norm_num)
      (by norm_num [pyInt, pyRound])]
    norm_num [pyInt, pyRound]
    decide⟩

theorem ctc_loss_never_accumulated_witness :
    0 < 1
    ∧ ((trainLoop 1 (fun _ => ⟨0, 0, 0⟩)).trainCtcLosses = []
      ∧ (trainLoop 1 (fun _ => ⟨0, 0, 0⟩)).trainDecoderLosses.length = 1
      ∧ trainSummary 1 (fun _ => ⟨0, 0, 0⟩) =
          .error "zero-size array to reduction operation minimum") :=
  ⟨Nat.one_pos, ctc_loss_never_accumulated 1 (fun _ => ⟨0, 0, 0⟩) Nat.one_pos⟩

end LipReading
